import Mathlib

/-!
Verification of the skychat DID <-> XMTP-inbox association protocol.

The definitions below are a shallow embedding of the repository's core
protocol logic:

* the base64 codec used on the signature wire field
  (`btoa(String.fromCharCode(...bytes))` in `src/App.tsx`, the lenient
  `Buffer.from(s, "base64")` decode used in the repository's protocol
  document `atproto-xmtp-doc.md`);
* the association record and its wire shape (`XmtpInboxRecord` in
  `src/utils/inboxResolver.ts`, the `putRecord` payload in `src/App.tsx`);
* the repository store with its single well-known slot
  (collection `org.xmtp.inbox`, record key `self`);
* the resolver `resolveInboxId` and the validator `isValidIdentifier`
  from `src/utils/inboxResolver.ts`;
* the signature primitive (an external XMTP collaborator, modelled from
  the specification) and the verification loop of `linkIdentities` in
  `src/App.tsx` / `verifySignature` in `atproto-xmtp-doc.md`.

Bytes are `Nat` values below 256; byte strings are `List Nat`.
-/

/-! ## Base64 codec

`src/App.tsx` line 254 encodes the signature bytes with
`btoa(String.fromCharCode(...new Uint8Array(signatureBytes)))`, which is
standard base64 with `=` padding.  The decode side used by the protocol
document (`Buffer.from(verificationSignature, "base64")`) is Node's lenient
decoder: characters outside the alphabet (including `=`) are skipped, the
surviving sextets are consumed in groups of four, a trailing group of two or
three sextets yields one or two bytes, and a lone trailing sextet is
dropped.  Both directions are total. -/

def b64Alphabet : List Char :=
  "ABCDEFGHIJKLMNOPQRSTUVWXYZabcdefghijklmnopqrstuvwxyz0123456789+/".data

/-- The base64 character for a sextet (a value below 64). -/
def sextetToChar (n : Nat) : Char := b64Alphabet.getD n 'A'

def sextetOfCharAux : List Char → Nat → Char → Option Nat
  | [], _, _ => none
  | a :: rest, i, c => if a = c then some i else sextetOfCharAux rest (i + 1) c

/-- The sextet of a base64 character; `none` for characters outside the
alphabet (among them the padding character `=`). -/
def charToSextet (c : Char) : Option Nat := sextetOfCharAux b64Alphabet 0 c

/-- Standard base64 encoding of a byte list, three bytes to four characters,
with `=` padding, as produced by `btoa(String.fromCharCode(...bytes))`. -/
def b64EncodeChunks : List Nat → List Char
  | [] => []
  | [b0] =>
      [sextetToChar (b0 / 4), sextetToChar (b0 % 4 * 16), '=', '=']
  | [b0, b1] =>
      [sextetToChar (b0 / 4), sextetToChar (b0 % 4 * 16 + b1 / 16),
       sextetToChar (b1 % 16 * 4), '=']
  | b0 :: b1 :: b2 :: rest =>
      sextetToChar (b0 / 4) :: sextetToChar (b0 % 4 * 16 + b1 / 16) ::
      sextetToChar (b1 % 16 * 4 + b2 / 64) :: sextetToChar (b2 % 64) ::
      b64EncodeChunks rest

/-- `btoa` over a byte list: the base64 string. -/
def btoaBytes (bs : List Nat) : String := String.mk (b64EncodeChunks bs)

/-- Reassemble bytes from a sextet stream, four sextets to three bytes; a
trailing pair or triple yields one or two bytes, a lone sextet nothing. -/
def b64DecodeSextets : List Nat → List Nat
  | s0 :: s1 :: s2 :: s3 :: rest =>
      (s0 * 4 + s1 / 16) :: (s1 % 16 * 16 + s2 / 4) :: (s2 % 4 * 64 + s3) ::
      b64DecodeSextets rest
  | [s0, s1] => [s0 * 4 + s1 / 16]
  | [s0, s1, s2] => [s0 * 4 + s1 / 16, s1 % 16 * 16 + s2 / 4]
  | _ => []

/-- Lenient base64 decode of a string, as `Buffer.from(s, "base64")`:
total, never failing; invalid characters and padding are skipped. -/
def b64Decode (s : String) : List Nat :=
  b64DecodeSextets (s.data.filterMap charToSextet)

theorem charToSextet_sextetToChar : ∀ n < 64, charToSextet (sextetToChar n) = some n := by
  decide

theorem charToSextet_pad : charToSextet '=' = none := by decide

theorem b64_roundtrip :
    ∀ bs : List Nat, (∀ b ∈ bs, b < 256) →
      b64DecodeSextets ((b64EncodeChunks bs).filterMap charToSextet) = bs
  | [], _ => by simp [b64EncodeChunks, b64DecodeSextets]
  | [b0], h => by
      have hb0 : b0 < 256 := h b0 (by simp)
      have e0 := charToSextet_sextetToChar (b0 / 4) (by omega)
      have e1 := charToSextet_sextetToChar (b0 % 4 * 16) (by omega)
      simp [b64EncodeChunks, List.filterMap_cons, e0, e1, charToSextet_pad,
        b64DecodeSextets]
      omega
  | [b0, b1], h => by
      have hb0 : b0 < 256 := h b0 (by simp)
      have hb1 : b1 < 256 := h b1 (by simp)
      have e0 := charToSextet_sextetToChar (b0 / 4) (by omega)
      have e1 := charToSextet_sextetToChar (b0 % 4 * 16 + b1 / 16) (by omega)
      have e2 := charToSextet_sextetToChar (b1 % 16 * 4) (by omega)
      simp [b64EncodeChunks, List.filterMap_cons, e0, e1, e2, charToSextet_pad,
        b64DecodeSextets]
      constructor <;> omega
  | b0 :: b1 :: b2 :: rest, h => by
      have hb0 : b0 < 256 := h b0 (by simp)
      have hb1 : b1 < 256 := h b1 (by simp)
      have hb2 : b2 < 256 := h b2 (by simp)
      have e0 := charToSextet_sextetToChar (b0 / 4) (by omega)
      have e1 := charToSextet_sextetToChar (b0 % 4 * 16 + b1 / 16) (by omega)
      have e2 := charToSextet_sextetToChar (b1 % 16 * 4 + b2 / 64) (by omega)
      have e3 := charToSextet_sextetToChar (b2 % 64) (by omega)
      have ih := b64_roundtrip rest (fun b hb => h b (by simp [hb]))
      simp [b64EncodeChunks, List.filterMap_cons, e0, e1, e2, e3,
        b64DecodeSextets, ih]
      refine ⟨by omega, by omega, by omega⟩

theorem b64Decode_btoaBytes (bs : List Nat) (h : ∀ b ∈ bs, b < 256) :
    b64Decode (btoaBytes bs) = bs :=
  b64_roundtrip bs h

/-! ## Association record and wire shape

The wire shape is `XmtpInboxRecord` from `src/utils/inboxResolver.ts`:
`{ id: string, verificationSignature: string, createdAt: string }`, the
`verificationSignature` field carrying base64 text and `createdAt` an
ISO-8601 timestamp string.  `AssociationRecord` is the same association
before encoding, with the raw signature bytes. -/

structure XmtpInboxRecord where
  id : String
  verificationSignature : String
  createdAt : String
deriving DecidableEq, Repr

structure AssociationRecord where
  id : String
  verificationSignature : List Nat
  createdAt : String
deriving DecidableEq, Repr

/-- Encoding to the wire shape, as built in `linkIdentities`
(`src/App.tsx` lines 253-267): the signature bytes become
`btoa(String.fromCharCode(...bytes))`, the other fields are copied. -/
def encodeRecord (r : AssociationRecord) : XmtpInboxRecord :=
  { id := r.id
    verificationSignature := btoaBytes r.verificationSignature
    createdAt := r.createdAt }

/-- Decoding from the wire shape, as in the protocol document's step 3:
the signature field is base64-decoded, the other fields are copied. -/
def decodeRecord (w : XmtpInboxRecord) : AssociationRecord :=
  { id := w.id
    verificationSignature := b64Decode w.verificationSignature
    createdAt := w.createdAt }

/-! ## The repository store and the well-known slot

A DID's repository is a list of stored records, each under a
`(collection, rkey)` address.  `putRecord` is an upsert: it replaces any
record at the same address (`com.atproto.repo.putRecord` semantics).
`linkIdentities` (`src/App.tsx` lines 259-268) always writes to the fixed
address `("org.xmtp.inbox", "self")`. -/

structure StoredRecord where
  collection : String
  rkey : String
  value : XmtpInboxRecord
deriving DecidableEq, Repr

def putRecord (repo : List StoredRecord) (collection rkey : String)
    (v : XmtpInboxRecord) : List StoredRecord :=
  ⟨collection, rkey, v⟩ ::
    repo.filter (fun r => !(r.collection = collection && r.rkey = rkey))

/-- All records of one collection, as `com.atproto.repo.listRecords`
returns them (`src/utils/inboxResolver.ts` lines 33-36). -/
def listRecords (repo : List StoredRecord) (collection : String) :
    List StoredRecord :=
  repo.filter (fun r => r.collection = collection)

/-- The record at one `(collection, rkey)` address, as
`com.atproto.repo.getRecord` returns it. -/
def getRecord (repo : List StoredRecord) (collection rkey : String) :
    Option XmtpInboxRecord :=
  (repo.filter (fun r => r.collection = collection && r.rkey = rkey)).head?.map
    (fun r => r.value)

/-- `Publisher.publish`: the `putRecord` call of `linkIdentities`, always at
the reserved collection `org.xmtp.inbox` and the reserved record key
`self`. -/
def publish (repo : List StoredRecord) (w : XmtpInboxRecord) :
    List StoredRecord :=
  putRecord repo "org.xmtp.inbox" "self" w

/-! ## The resolver (`src/utils/inboxResolver.ts`)

`resolveInboxId` performs network calls through an `AtpAgent`; the embedding
makes the two external calls explicit parameters.  `HandleRes` is the
outcome of `com.atproto.identity.resolveHandle` (`.failed` models a thrown
error).  `RepoFetch` is the outcome of `com.atproto.repo.listRecords` on the
`org.xmtp.inbox` collection: the record values on success, `.repoNotFound`
for a thrown error whose message contains `Could not find repo`, and
`.transportError` for any other thrown error.  In the source both thrown
cases are caught and produce `null`; the embedding returns `none` exactly
where the source returns `null`. -/

inductive HandleRes where
  | ok : String → HandleRes
  | failed : HandleRes
deriving DecidableEq, Repr

inductive RepoFetch where
  | success : List XmtpInboxRecord → RepoFetch
  | repoNotFound : RepoFetch
  | transportError : RepoFetch
deriving DecidableEq, Repr

/-- `identifier.startsWith('did:')`. -/
def startsWithDid (s : String) : Bool :=
  match s.data with
  | 'd' :: 'i' :: 'd' :: ':' :: _ => true
  | _ => false

/-- The body of `resolveInboxId` after the DID is known: list the
`org.xmtp.inbox` records, and if there is at least one whose first value has
a truthy `id`, return that `id`; otherwise (no records, falsy `id`,
`Could not find repo`, or any other error) return `null`. -/
def resolveFetched (f : RepoFetch) : Option String :=
  match f with
  | .success records =>
      match records.head? with
      | some r => if r.id = "" then none else some r.id
      | none => none
  | .repoNotFound => none
  | .transportError => none

/-- `resolveInboxId(identifier, agent)`: use the identifier as the DID when
it starts with `did:`, otherwise resolve the handle first (a thrown handle
resolution lands in the same catch block and yields `null`). -/
def resolveInboxId (identifier : String) (resolveHandle : String → HandleRes)
    (fetchRepo : String → RepoFetch) : Option String :=
  if startsWithDid identifier then resolveFetched (fetchRepo identifier)
  else
    match resolveHandle identifier with
    | .ok did => resolveFetched (fetchRepo did)
    | .failed => none

/-- The `RepoFetch` outcome a repository in state `repo` gives: the values
of all records in the `org.xmtp.inbox` collection. -/
def fetchFromRepo (repo : List StoredRecord) : RepoFetch :=
  .success ((listRecords repo "org.xmtp.inbox").map (fun r => r.value))

/-! ## Identifier validation (`src/utils/inboxResolver.ts` lines 59-68) -/

/-- A character of the class `[a-zA-Z]`. -/
def isRegexLetter (c : Char) : Bool :=
  ('a' ≤ c && c ≤ 'z') || ('A' ≤ c && c ≤ 'Z')

/-- A character of the class `[a-zA-Z0-9.-]`. -/
def isHandleChar (c : Char) : Bool :=
  isRegexLetter c || ('0' ≤ c && c ≤ '9') || c = '.' || c = '-'

/-- The suffix part of the handle regex: a literal dot, then at least two
letters running to the end of the string. -/
def tldMatch : List Char → Bool
  | [] => false
  | c :: rest =>
      decide (c = '.') && decide (2 ≤ rest.length) && rest.all isRegexLetter

/-- Whole-string match of the regex from the source,
`[a-zA-Z0-9.-]+` then `\.` then `[a-zA-Z]` at least twice, anchored at both
ends: some split position carries a nonempty handle-class run, then the dot
and the letter tail. -/
def handleRegexMatch (cs : List Char) : Bool :=
  (List.range cs.length).any fun i =>
    decide (1 ≤ i) && (cs.take i).all isHandleChar && tldMatch (cs.drop i)

/-- `isValidIdentifier`: a `did:`-led string, or a regex handle match. -/
def isValidIdentifier (identifier : String) : Bool :=
  startsWithDid identifier || handleRegexMatch identifier.data

/-! ## Claims about the wire codec and the resolver -/

/-- C4: encoding an `AssociationRecord` to its wire shape (`id`,
`verificationSignature` as a base64 string, `createdAt` as a timestamp
string) and decoding it back yields the original record for every field
value, and in particular base64-decoding the encoding of any byte sequence
returns that byte sequence. -/
theorem record_encode_decode_roundtrip (r : AssociationRecord)
    (h : ∀ b ∈ r.verificationSignature, b < 256) :
    decodeRecord (encodeRecord r) = r ∧
    b64Decode (btoaBytes r.verificationSignature) = r.verificationSignature := by
  have hb := b64Decode_btoaBytes r.verificationSignature h
  refine ⟨?_, hb⟩
  cases r with
  | mk id sig createdAt => simpa [encodeRecord, decodeRecord] using hb

theorem record_encode_decode_roundtrip_witness :
    decodeRecord (encodeRecord ⟨"0xInbox1", [0, 255, 77, 1], "2024-01-01T00:00:00Z"⟩) =
      ⟨"0xInbox1", [0, 255, 77, 1], "2024-01-01T00:00:00Z"⟩ ∧
    b64Decode (btoaBytes [0, 255, 77, 1]) = [0, 255, 77, 1] :=
  record_encode_decode_roundtrip ⟨"0xInbox1", [0, 255, 77, 1], "2024-01-01T00:00:00Z"⟩
    (by decide)

/-- C3 counterexample: on the concrete DID `did:plc:abc`, a repository that
does not exist and a transport failure produce the same resolver value
(`none`, the embedding of the source's `null`); the claim that the two
outcomes are never the same value is false. -/
theorem resolver_conflates_notfound_and_transport :
    resolveInboxId "did:plc:abc" (fun _ => .failed) (fun _ => .repoNotFound) =
      resolveInboxId "did:plc:abc" (fun _ => .failed) (fun _ => .transportError) ∧
    resolveInboxId "did:plc:abc" (fun _ => .failed) (fun _ => .repoNotFound) = none :=
  ⟨rfl, rfl⟩

/-- C3 amended: `resolveInboxId` returns `null` both when the repository
does not exist (`Could not find repo`) and when any other transport error is
thrown; the two outcomes are the same value, distinguished only by a logged
message. -/
theorem resolveInboxId_all_errors_null (identifier : String)
    (hres : String → HandleRes) :
    resolveInboxId identifier hres (fun _ => .repoNotFound) = none ∧
    resolveInboxId identifier hres (fun _ => .transportError) = none := by
  constructor <;>
  · unfold resolveInboxId
    split
    · rfl
    · cases hres identifier <;> rfl

/-- C8: resolving a DID that has no published association record — the
repository exists but holds no `org.xmtp.inbox` record, or the repository
does not exist at all — returns `none` (the source's `null`, its `NotFound`
value); the embedding is a total function, so no exception reaches the
caller. -/
theorem resolve_absent_record_is_none (did : String)
    (hres : String → HandleRes) (fetchRepo : String → RepoFetch)
    (hdid : startsWithDid did = true)
    (habsent : fetchRepo did = .success [] ∨ fetchRepo did = .repoNotFound) :
    resolveInboxId did hres fetchRepo = none := by
  unfold resolveInboxId
  rw [if_pos hdid]
  rcases habsent with h | h <;> rw [h] <;> rfl

theorem resolve_absent_record_is_none_witness :
    resolveInboxId "did:plc:abc" (fun _ => .failed) (fun _ => .success []) = none :=
  resolve_absent_record_is_none "did:plc:abc" (fun _ => .failed)
    (fun _ => .success []) (by decide) (Or.inl rfl)

/-- C10: a stored record whose `id` field is missing or empty (both falsy in
the source's `if (inboxRecord.id)` test, embedded as the empty string) makes
`resolveInboxId` return `none` — the very value returned when no record
exists at all, so a malformed record and an absent association are
indistinguishable at the resolver's interface. -/
theorem resolve_malformed_record_is_none (did : String)
    (hres : String → HandleRes) (r : XmtpInboxRecord)
    (rest : List XmtpInboxRecord) (hdid : startsWithDid did = true)
    (hid : r.id = "") :
    resolveInboxId did hres (fun _ => .success (r :: rest)) = none ∧
    resolveInboxId did hres (fun _ => .success []) = none := by
  constructor <;> · unfold resolveInboxId; rw [if_pos hdid]; simp [resolveFetched, hid]

theorem resolve_malformed_record_is_none_witness :
    resolveInboxId "did:plc:abc" (fun _ => .failed)
      (fun _ => .success [⟨"", "c2ln", "2024-01-01T00:00:00Z"⟩]) = none ∧
    resolveInboxId "did:plc:abc" (fun _ => .failed) (fun _ => .success []) = none :=
  resolve_malformed_record_is_none "did:plc:abc" (fun _ => .failed)
    ⟨"", "c2ln", "2024-01-01T00:00:00Z"⟩ [] (by decide) rfl

theorem startsWithDid_iff (s : String) :
    startsWithDid s = true ↔ ∃ t, s.data = 'd' :: 'i' :: 'd' :: ':' :: t := by
  constructor
  · intro h
    unfold startsWithDid at h
    split at h
    next heq => exact ⟨_, heq⟩
    next => cases h
  · rintro ⟨t, ht⟩
    unfold startsWithDid
    rw [ht]
    rfl

theorem handleRegexMatch_iff (cs : List Char) :
    handleRegexMatch cs = true ↔
      ∃ a b, cs = a ++ '.' :: b ∧ a ≠ [] ∧ (∀ c ∈ a, isHandleChar c = true) ∧
        2 ≤ b.length ∧ ∀ c ∈ b, isRegexLetter c = true := by
  unfold handleRegexMatch
  rw [List.any_eq_true]
  constructor
  · rintro ⟨i, hi, hcond⟩
    rw [List.mem_range] at hi
    simp only [Bool.and_eq_true, decide_eq_true_eq] at hcond
    obtain ⟨⟨h1, hall⟩, htld⟩ := hcond
    cases hdrop : cs.drop i with
    | nil => rw [hdrop] at htld; cases htld
    | cons c rest =>
      rw [hdrop] at htld
      simp only [tldMatch, Bool.and_eq_true, decide_eq_true_eq,
        List.all_eq_true] at htld
      obtain ⟨⟨hdot, hlen⟩, hletters⟩ := htld
      subst hdot
      refine ⟨cs.take i, rest, ?_, ?_, ?_, hlen, hletters⟩
      · conv_lhs => rw [← List.take_append_drop i cs]
        rw [hdrop]
      · intro hnil
        have h0 : (cs.take i).length = 0 := by rw [hnil]; rfl
        rw [List.length_take] at h0
        omega
      · rw [List.all_eq_true] at hall
        exact hall
  · rintro ⟨a, b, hcs, hne, hha, hlen, hlet⟩
    subst hcs
    refine ⟨a.length, ?_, ?_⟩
    · rw [List.mem_range, List.length_append]
      simp only [List.length_cons]
      omega
    · have hlen1 : 1 ≤ a.length := List.length_pos.mpr hne
      rw [List.take_left, List.drop_left]
      simp only [tldMatch, Bool.and_eq_true, decide_eq_true_eq, List.all_eq_true]
      exact ⟨⟨by omega, hha⟩, ⟨trivial, hlen⟩, hlet⟩

/-- C9: `isValidIdentifier` accepts every string led by `did:` (the bare
`did:` included), accepts a further string exactly when it decomposes as a
nonempty run of handle-class characters (`[a-zA-Z0-9.-]`), a dot, and at
least two letters running to the end, and rejects every other string. -/
theorem isValidIdentifier_spec :
    isValidIdentifier "did:" = true ∧
    ∀ s : String, isValidIdentifier s = true ↔
      ((∃ t, s.data = 'd' :: 'i' :: 'd' :: ':' :: t) ∨
        ∃ a b, s.data = a ++ '.' :: b ∧ a ≠ [] ∧
          (∀ c ∈ a, isHandleChar c = true) ∧ 2 ≤ b.length ∧
          ∀ c ∈ b, isRegexLetter c = true) := by
  refine ⟨by decide, fun s => ?_⟩
  unfold isValidIdentifier
  rw [Bool.or_eq_true, startsWithDid_iff, handleRegexMatch_iff]

theorem publish_all_slot (ws : List XmtpInboxRecord) :
    ∀ acc : List StoredRecord,
      (∀ e ∈ acc, e.collection = "org.xmtp.inbox" ∧ e.rkey = "self") →
      ∀ e ∈ ws.foldl publish acc,
        e.collection = "org.xmtp.inbox" ∧ e.rkey = "self" := by
  induction ws with
  | nil => intro acc hacc; simpa using hacc
  | cons w ws ih =>
    intro acc hacc
    rw [List.foldl_cons]
    apply ih
    intro e he
    unfold publish putRecord at he
    rcases List.mem_cons.mp he with h | h
    · subst h; exact ⟨rfl, rfl⟩
    · exact hacc e (List.mem_of_mem_filter h)

/-- C2: every publish writes the record to the single well-known slot
(collection `org.xmtp.inbox`, record key `self`), overwriting with no merge
and no append — after any sequence of publishes the collection holds exactly
the last record published, the slot's `getRecord` returns it, and the
resolver returns its inbox id. -/
theorem publish_resolve_last (rs : List XmtpInboxRecord) (w : XmtpInboxRecord)
    (did : String) (hres : String → HandleRes)
    (hdid : startsWithDid did = true) (hid : w.id ≠ "") :
    listRecords ((rs ++ [w]).foldl publish []) "org.xmtp.inbox" =
      [⟨"org.xmtp.inbox", "self", w⟩] ∧
    getRecord ((rs ++ [w]).foldl publish []) "org.xmtp.inbox" "self" = some w ∧
    resolveInboxId did hres
      (fun _ => fetchFromRepo ((rs ++ [w]).foldl publish [])) = some w.id := by
  have hrepo : (rs ++ [w]).foldl publish [] = publish (rs.foldl publish []) w := by
    rw [List.foldl_append]
    rfl
  have hall := publish_all_slot rs [] (by simp)
  have hfilter : (rs.foldl publish []).filter
      (fun r => !(r.collection = "org.xmtp.inbox" && r.rkey = "self")) = [] := by
    rw [List.filter_eq_nil_iff]
    intro e he
    have h2 := hall e he
    simp [h2.1, h2.2]
  have hpub : ∀ (repo : List StoredRecord) (v : XmtpInboxRecord),
      publish repo v = ⟨"org.xmtp.inbox", "self", v⟩ ::
        repo.filter (fun r => !(r.collection = "org.xmtp.inbox" && r.rkey = "self")) :=
    fun _ _ => rfl
  have hform : (rs ++ [w]).foldl publish [] = [⟨"org.xmtp.inbox", "self", w⟩] := by
    rw [hrepo, hpub, hfilter]
  refine ⟨?_, ?_, ?_⟩
  · rw [hform]; rfl
  · rw [hform]; rfl
  · rw [hform]
    unfold resolveInboxId
    rw [if_pos hdid]
    simp [fetchFromRepo, listRecords, resolveFetched, hid]

theorem publish_resolve_last_witness :
    listRecords ((([⟨"0xOld", "b2xk", "2023-01-01T00:00:00Z"⟩,
          ⟨"0xInbox1", "c2ln", "2024-01-01T00:00:00Z"⟩] : List XmtpInboxRecord)).foldl
        publish []) "org.xmtp.inbox" =
      [⟨"org.xmtp.inbox", "self", ⟨"0xInbox1", "c2ln", "2024-01-01T00:00:00Z"⟩⟩] ∧
    getRecord ((([⟨"0xOld", "b2xk", "2023-01-01T00:00:00Z"⟩,
          ⟨"0xInbox1", "c2ln", "2024-01-01T00:00:00Z"⟩] : List XmtpInboxRecord)).foldl
        publish []) "org.xmtp.inbox" "self" =
      some ⟨"0xInbox1", "c2ln", "2024-01-01T00:00:00Z"⟩ ∧
    resolveInboxId "did:plc:abc" (fun _ => .failed)
      (fun _ => fetchFromRepo ((([⟨"0xOld", "b2xk", "2023-01-01T00:00:00Z"⟩,
          ⟨"0xInbox1", "c2ln", "2024-01-01T00:00:00Z"⟩] : List XmtpInboxRecord)).foldl
        publish [])) = some "0xInbox1" :=
  publish_resolve_last [⟨"0xOld", "b2xk", "2023-01-01T00:00:00Z"⟩]
    ⟨"0xInbox1", "c2ln", "2024-01-01T00:00:00Z"⟩ "did:plc:abc"
    (fun _ => .failed) (by decide) (by decide)

/-! ## The signature primitive and the verifier

The signing and verifying primitives are the external XMTP collaborators
`client.signWithInstallationKey` and `client.verifySignedWithPublicKey`.

Modelled from the spec: the primitive signs the exact UTF-8 byte content of
the DID string with an installation key and verification succeeds exactly
against the signer's public key and the signed message
(`sign(secretKeyHandle, message: bytes) -> Signature`,
`verify(publicKeyBytes, message: bytes, signature: Signature) -> bool`,
never throwing, false on any malformed input).  A signature is carried as
bytes: the signer's public key, length-prefixed, followed by the message
bytes; byte strings that do not parse this way are the malformed
signatures, on which verification returns false rather than raising.
`utf8Str` stands for the UTF-8 bytes of a string (its codepoints; injective,
which is the only property used). -/

def utf8Str (s : String) : List Nat := s.data.map Char.toNat

structure InstallationSig where
  signerKey : List Nat
  message : List Nat
deriving DecidableEq, Repr

def sigEncode (s : InstallationSig) : List Nat :=
  s.signerKey.length :: s.signerKey ++ s.message

def parseSig (bs : List Nat) : Option InstallationSig :=
  match bs with
  | [] => none
  | n :: rest =>
      if n ≤ rest.length then some ⟨rest.take n, rest.drop n⟩ else none

/-- `client.signWithInstallationKey(did)`: signature bytes over the exact
byte content of the DID string, bound to the installation's key. -/
def signWithInstallationKey (key : List Nat) (did : String) : List Nat :=
  sigEncode ⟨key, utf8Str did⟩

/-- `client.verifySignedWithPublicKey(did, signatureBytes, publicKey)`:
true exactly when the bytes parse as a signature by `publicKey` over the
byte content of `did`; false (never an error) otherwise. -/
def verifySignedWithPublicKey (did : String) (sigBytes : List Nat)
    (publicKey : List Nat) : Bool :=
  match parseSig sigBytes with
  | some s => decide (s.signerKey = publicKey) && decide (s.message = utf8Str did)
  | none => false

/-! An installation, as the messaging network reports it:
`fetchInstallationStates([inboxId]) ->
[{inboxId, installations: [{publicKeyBytes, active: bool}]}]` per the
specification's external-interface section — the public key bytes
(`installation.bytes` in the source) and the revocation status. -/

structure Installation where
  bytes : List Nat
  active : Bool
deriving DecidableEq, Repr

structure InboxState where
  installations : List Installation
deriving DecidableEq, Repr

/-- The verification loop of `linkIdentities` (`src/App.tsx` lines 276-287)
and of `verifySignature` in `atproto-xmtp-doc.md`: try every installation of
the fetched inbox state, stopping at the first success. -/
def verifyWithInstallations (did : String) (st : InboxState)
    (sigBytes : List Nat) : Bool :=
  st.installations.any fun inst => verifySignedWithPublicKey did sigBytes inst.bytes

/-- `Verifier.verify(did, inboxId, signature)`: fetch the installation set
for the inbox from the messaging network (`Client.fetchInboxStates`), then
run the verification loop over it. -/
def verifierVerify (fetchStates : String → InboxState) (did inboxId : String)
    (sigBytes : List Nat) : Bool :=
  verifyWithInstallations did (fetchStates inboxId) sigBytes

/-- Record-level verification as in the protocol document's
`verifySignature`: base64-decode the record's `verificationSignature`
string, then run the verification loop. -/
def verifySignatureRecord (did : String) (st : InboxState)
    (verificationSignature : String) : Bool :=
  verifyWithInstallations did st (b64Decode verificationSignature)

/-- The algorithm as the specification words it (for comparison with the
code): consult only the installations whose revocation status is active. -/
def verifierVerifySpecActive (fetchStates : String → InboxState)
    (did inboxId : String) (sigBytes : List Nat) : Bool :=
  ((fetchStates inboxId).installations.filter (fun inst => inst.active)).any
    fun inst => verifySignedWithPublicKey did sigBytes inst.bytes

theorem parseSig_sigEncode (s : InstallationSig) : parseSig (sigEncode s) = some s := by
  cases s with
  | mk key msg =>
      simp [sigEncode, parseSig, List.take_left, List.drop_left]

theorem utf8Str_inj {a b : String} (h : utf8Str a = utf8Str b) : a = b := by
  have hinj : Function.Injective Char.toNat := by
    intro c d hcd
    have h2 := congrArg Char.ofNat hcd
    rwa [Char.ofNat_toNat, Char.ofNat_toNat] at h2
  have hdata : a.data = b.data := List.map_injective_iff.mpr hinj h
  cases a
  cases b
  exact congrArg String.mk hdata

/-! ## Claims about the verifier -/

/-- C1 counterexample: an inbox state holding a single installation whose
revocation status is inactive, and a signature made by that installation's
key over the claimed DID.  The code's verifier consults the inactive
installation and returns true; the claim's algorithm, which only consults
installations whose status is active, returns false — so the claim that
inactive installations are never consulted is false of the code. -/
theorem verifier_consults_inactive_installations :
    verifierVerify (fun _ => ⟨[⟨[1], false⟩]⟩) "did:plc:abc" "0xInbox1"
        (signWithInstallationKey [1] "did:plc:abc") = true ∧
    verifierVerifySpecActive (fun _ => ⟨[⟨[1], false⟩]⟩) "did:plc:abc" "0xInbox1"
        (signWithInstallationKey [1] "did:plc:abc") = false := by
  exact ⟨by decide, by decide⟩

/-- C1 amended: `Verifier.verify` fetches the installation set for the inbox
and succeeds exactly when some installation of the fetched set — regardless
of its revocation status — makes the signature primitive accept
(installation key, DID bytes, signature): true on the first matching
installation, false when the set is exhausted. -/
theorem verifierVerify_iff_some_installation (fetchStates : String → InboxState)
    (did inboxId : String) (sigBytes : List Nat) :
    verifierVerify fetchStates did inboxId sigBytes = true ↔
      ∃ inst ∈ (fetchStates inboxId).installations,
        verifySignedWithPublicKey did sigBytes inst.bytes = true := by
  unfold verifierVerify verifyWithInstallations
  exact List.any_eq_true

/-- C5 counterexample: an inbox whose installation set has zero active
installations (its only installation is inactive) on which the code's
verifier nevertheless returns true, for the signature made by the inactive
installation's key — the claim that such an inbox verifies false for every
did and signature is false of the code. -/
theorem zero_active_installations_can_verify :
    ((⟨[⟨[2], false⟩]⟩ : InboxState).installations.filter
        (fun inst => inst.active)).length = 0 ∧
    verifierVerify (fun _ => ⟨[⟨[2], false⟩]⟩) "did:plc:xyz" "0xInbox2"
        (signWithInstallationKey [2] "did:plc:xyz") = true := by
  exact ⟨by decide, by decide⟩

/-- C5 amended: for every inbox whose fetched installation set is empty,
`Verifier.verify` returns false for every DID and every signature; the
embedded verifier is a total boolean function, so no error is raised. -/
theorem verify_empty_installations_false (fetchStates : String → InboxState)
    (did inboxId : String) (sigBytes : List Nat)
    (h : (fetchStates inboxId).installations = []) :
    verifierVerify fetchStates did inboxId sigBytes = false := by
  unfold verifierVerify verifyWithInstallations
  rw [h]
  rfl

theorem verify_empty_installations_false_witness :
    verifierVerify (fun _ => ⟨[]⟩) "did:plc:abc" "0xInbox1" [0, 1, 2] = false :=
  verify_empty_installations_false (fun _ => ⟨[]⟩) "did:plc:abc" "0xInbox1"
    [0, 1, 2] rfl

/-- C6: a signature produced by signing a different DID string with an
installation key never verifies for the original DID, whatever the fetched
installation set: the signature binds the exact byte content of the DID it
was made over, so it cannot be replayed to associate the inbox with another
DID. -/
theorem no_cross_did_replay (fetchStates : String → InboxState)
    (key : List Nat) (dOther d inboxId : String) (hne : dOther ≠ d) :
    verifierVerify fetchStates d inboxId
      (signWithInstallationKey key dOther) = false := by
  unfold verifierVerify verifyWithInstallations
  rw [List.any_eq_false]
  intro inst _
  unfold verifySignedWithPublicKey signWithInstallationKey
  rw [parseSig_sigEncode]
  simp only [Bool.and_eq_true, decide_eq_true_eq, not_and]
  intro h1 h2
  exact hne (utf8Str_inj h2)

theorem no_cross_did_replay_witness :
    ("did:plc:other" ≠ "did:plc:abc") ∧
    verifierVerify (fun _ => ⟨[⟨[1], true⟩]⟩) "did:plc:abc" "0xInbox1"
      (signWithInstallationKey [1] "did:plc:other") = false :=
  ⟨by decide, no_cross_did_replay (fun _ => ⟨[⟨[1], true⟩]⟩) [1]
    "did:plc:other" "did:plc:abc" "0xInbox1" (by decide)⟩

/-- C7: verification never raises on malformed third-party input: the
signature primitive returns false on every byte string that does not parse
as a signature, and the record-level verifier returns false — a verification
failure, not an exception; every embedded function is total — on every
`verificationSignature` string whose decoded bytes are malformed. -/
theorem malformed_input_verifies_false :
    (∀ (did : String) (publicKey bs : List Nat), parseSig bs = none →
      verifySignedWithPublicKey did bs publicKey = false) ∧
    ∀ (did : String) (st : InboxState) (s : String),
      parseSig (b64Decode s) = none → verifySignatureRecord did st s = false := by
  constructor
  · intro did pk bs h
    unfold verifySignedWithPublicKey
    rw [h]
  · intro did st s h
    unfold verifySignatureRecord verifyWithInstallations
    rw [List.any_eq_false]
    intro inst _
    unfold verifySignedWithPublicKey
    rw [h]
    simp

theorem malformed_input_verifies_false_witness :
    verifySignedWithPublicKey "did:plc:abc" [] [1] = false ∧
    verifySignatureRecord "did:plc:abc" ⟨[⟨[1], true⟩]⟩ "!" = false :=
  ⟨malformed_input_verifies_false.1 "did:plc:abc" [1] [] rfl,
   malformed_input_verifies_false.2 "did:plc:abc" ⟨[⟨[1], true⟩]⟩ "!" (by decide)⟩
